import Mathlib

/-!
Verification of the multi-tenant session gateway.

Shallow embedding of the TypeScript sources:
* `SessionManager`          — src/session/session-manager.ts (legacy in-memory class)
* `InMemorySessionStore`    — src/session/session-manager.ts (worker fallback store)
* `SessionDurableObject`    — src/session/session-manager.ts (SQLite-backed store)
* `verifyClerkToken`        — src/auth/clerk.ts
* `authMiddlewareSM`        — auth middleware in src/session/session-manager.ts
* `authMiddlewareWH`        — auth middleware in src/worker-hono.ts
* `OpenCodeService`         — src/opencode/opencode-client.ts (durable-object backed)
* `promptHandler`           — POST /api/prompt route in src/session/session-manager.ts

JavaScript `Map<string, V>` objects are modelled as association lists in
insertion order: `get` finds the first binding, `set` overwrites the first
binding in place or appends, `delete` removes the first binding,
`values()` lists values in insertion order.  States actually produced by
the code always have pairwise-distinct keys; theorems that depend on that
carry an explicit no-duplicate hypothesis.
-/

/-- JS `Map.get`: first binding of the key, if any. -/
def mapGet {α : Type} (k : String) : List (String × α) → Option α
  | [] => none
  | e :: rest => if e.1 = k then some e.2 else mapGet k rest

/-- JS `Map.set`: overwrite the first binding in place, else append. -/
def mapSet {α : Type} (k : String) (v : α) : List (String × α) → List (String × α)
  | [] => [(k, v)]
  | e :: rest => if e.1 = k then (k, v) :: rest else e :: mapSet k v rest

/-- JS `Map.delete`: remove the first binding of the key. -/
def mapDelete {α : Type} (k : String) : List (String × α) → List (String × α)
  | [] => []
  | e :: rest => if e.1 = k then rest else e :: mapDelete k rest

/-- JS `Map.values()`: values in insertion order. -/
def mapValues {α : Type} (m : List (String × α)) : List α :=
  m.map Prod.snd

/-- The conversation message record `{ role, content }`. -/
structure Msg where
  role : String
  content : String
deriving DecidableEq, Repr

/-- The session record `{ id, userId, createdAt }`. -/
structure Session where
  id : String
  userId : String
  createdAt : Nat
deriving DecidableEq, Repr

namespace SessionManager

/-- State of the legacy `SessionManager` class: `sessions` map and `idCounter`. -/
structure State where
  sessions : List (String × Session)
  idCounter : Nat
deriving DecidableEq, Repr

/-- The freshly constructed `SessionManager` (empty map, counter 0). -/
def initial : State := { sessions := [], idCounter := 0 }

/-- `createSession(userId)`: id is `session-${idCounter++}`, stores and returns it.
`now` stands for `Date.now()`. -/
def createSession (userId : String) (now : Nat) (st : State) : Session × State :=
  let sess : Session :=
    { id := "session-" ++ toString st.idCounter, userId := userId, createdAt := now }
  (sess, { sessions := mapSet sess.id sess st.sessions, idCounter := st.idCounter + 1 })

/-- `getSession(sessionId, userId)`: return the session only when the owner matches. -/
def getSession (sessionId userId : String) (st : State) : Option Session :=
  match mapGet sessionId st.sessions with
  | some session => if session.userId = userId then some session else none
  | none => none

/-- `deleteSession(sessionId, userId)`: declared `void` in the source — it removes
the entry when the owner matches and returns no value.  The first component
models the JS call result: a `void` function evaluates to `undefined`,
i.e. `none`, never a boolean. -/
def deleteSession (sessionId userId : String) (st : State) : Option Bool × State :=
  match mapGet sessionId st.sessions with
  | some session =>
    if session.userId = userId then
      (none, { st with sessions := mapDelete sessionId st.sessions })
    else (none, st)
  | none => (none, st)

end SessionManager

namespace InMemorySessionStore

/-- State of `InMemorySessionStore`: `sessions` map, `messages` map, `sessionCounter`. -/
structure State where
  sessions : List (String × Session)
  messages : List (String × List Msg)
  sessionCounter : Nat
deriving DecidableEq, Repr

/-- The freshly constructed store. -/
def initial : State := { sessions := [], messages := [], sessionCounter := 0 }

/-- `createSession(userId)`: id is `opencode-${Date.now()}-${sessionCounter++}`;
stores the session and an empty message list. -/
def createSession (userId : String) (now : Nat) (st : State) : Session × State :=
  let sess : Session :=
    { id := "opencode-" ++ toString now ++ "-" ++ toString st.sessionCounter
      userId := userId
      createdAt := now }
  (sess,
    { sessions := mapSet sess.id sess st.sessions
      messages := mapSet sess.id [] st.messages
      sessionCounter := st.sessionCounter + 1 })

/-- `getSession(sessionId, userId)`: the session only when the owner matches, else `null`. -/
def getSession (sessionId userId : String) (st : State) : Option Session :=
  match mapGet sessionId st.sessions with
  | some session => if session.userId = userId then some session else none
  | none => none

/-- `deleteSession(sessionId, userId)`: when owned, remove session and messages and
return `true`; otherwise return `false` leaving the state unchanged. -/
def deleteSession (sessionId userId : String) (st : State) : Bool × State :=
  match mapGet sessionId st.sessions with
  | some session =>
    if session.userId = userId then
      (true,
        { st with
          sessions := mapDelete sessionId st.sessions
          messages := mapDelete sessionId st.messages })
    else (false, st)
  | none => (false, st)

/-- `listUserSessions(userId)`: values of the sessions map filtered by owner,
in map insertion order (no sorting in the source). -/
def listUserSessions (userId : String) (st : State) : List Session :=
  (mapValues st.sessions).filter (fun s => decide (s.userId = userId))

/-- `addMessage(sessionId, userId, message)`: throws when the session is absent or
not owned; otherwise appends to the history list. -/
def addMessage (sessionId userId : String) (message : Msg) (st : State) :
    Except String State :=
  match mapGet sessionId st.sessions with
  | some session =>
    if session.userId = userId then
      .ok { st with
            messages :=
              mapSet sessionId ((mapGet sessionId st.messages).getD [] ++ [message])
                st.messages }
    else .error "Session not found or access denied"
  | none => .error "Session not found or access denied"

/-- `getConversationHistory(sessionId, userId)`: empty when absent or not owned,
else the stored list. -/
def getConversationHistory (sessionId userId : String) (st : State) : List Msg :=
  match mapGet sessionId st.sessions with
  | some session =>
    if session.userId = userId then (mapGet sessionId st.messages).getD [] else []
  | none => []

end InMemorySessionStore

namespace SessionDurableObject

/-- A row of the `messages` table: autoincrement `rowid`, foreign key, payload,
creation time. -/
structure MessageRow where
  rowid : Nat
  sessionId : String
  role : String
  content : String
  createdAt : Nat
deriving DecidableEq, Repr

/-- State of the SQLite-backed durable object: the `sessions` table (rows in
insertion order) and the `messages` table (rows in `rowid` order). -/
structure State where
  sessions : List Session
  messages : List MessageRow
  nextRowid : Nat
deriving DecidableEq, Repr

/-- Empty tables. -/
def initial : State := { sessions := [], messages := [], nextRowid := 1 }

/-- `SELECT id, user_id, created_at FROM sessions WHERE id = ? AND user_id = ?`;
`id` is the primary key, so at most one row matches. -/
def getSession (sessionId userId : String) (st : State) : Option Session :=
  st.sessions.find? (fun r => decide (r.id = sessionId) && decide (r.userId = userId))

/-- `INSERT INTO sessions (id, user_id, created_at) VALUES (?, ?, ?)` with id
`opencode-${Date.now()}-${Math.random()...}`; `rand` stands for the random
suffix.  A duplicate id violates the PRIMARY KEY constraint and throws. -/
def createSession (userId : String) (now : Nat) (rand : String) (st : State) :
    Except String (Session × State) :=
  let sess : Session :=
    { id := "opencode-" ++ toString now ++ "-" ++ rand, userId := userId, createdAt := now }
  if st.sessions.any (fun r => decide (r.id = sess.id)) then
    .error "UNIQUE constraint failed: sessions.id"
  else
    .ok (sess, { st with sessions := st.sessions ++ [sess] })

/-- `deleteSession`: verify ownership via `getSession`, then
`DELETE FROM sessions WHERE id = ?`; the `messages` rows go away via
`ON DELETE CASCADE`. -/
def deleteSession (sessionId userId : String) (st : State) : Bool × State :=
  match getSession sessionId userId st with
  | none => (false, st)
  | some _ =>
    (true,
      { st with
        sessions := st.sessions.filter (fun r => decide (r.id ≠ sessionId))
        messages := st.messages.filter (fun r => decide (r.sessionId ≠ sessionId)) })

/-- Comparator of `ORDER BY created_at DESC`. -/
def moreRecent (a b : Session) : Prop := b.createdAt ≤ a.createdAt

instance : DecidableRel moreRecent :=
  fun a b => inferInstanceAs (Decidable (b.createdAt ≤ a.createdAt))

instance : IsTotal Session moreRecent :=
  ⟨fun a b => Nat.le_total b.createdAt a.createdAt⟩

instance : IsTrans Session moreRecent :=
  ⟨fun _ _ _ hab hbc => Nat.le_trans hbc hab⟩

/-- `SELECT ... FROM sessions WHERE user_id = ? ORDER BY created_at DESC`,
modelled as a stable sort of the matching rows. -/
def listUserSessions (userId : String) (st : State) : List Session :=
  List.insertionSort moreRecent (st.sessions.filter (fun r => decide (r.userId = userId)))

/-- Comparator of `ORDER BY created_at ASC`. -/
def olderFirst (a b : MessageRow) : Prop := a.createdAt ≤ b.createdAt

instance : DecidableRel olderFirst :=
  fun a b => inferInstanceAs (Decidable (a.createdAt ≤ b.createdAt))

instance : IsTotal MessageRow olderFirst :=
  ⟨fun a b => Nat.le_total a.createdAt b.createdAt⟩

instance : IsTrans MessageRow olderFirst :=
  ⟨fun _ _ _ => Nat.le_trans⟩

/-- `addMessage`: verify ownership via `getSession`, then
`INSERT INTO messages (session_id, role, content, created_at)`. -/
def addMessage (sessionId userId : String) (message : Msg) (now : Nat) (st : State) :
    Except String State :=
  match getSession sessionId userId st with
  | none => .error "Session not found or access denied"
  | some _ =>
    .ok { st with
          messages := st.messages ++
            [{ rowid := st.nextRowid, sessionId := sessionId,
               role := message.role, content := message.content, createdAt := now }]
          nextRowid := st.nextRowid + 1 }

/-- `getConversationHistory`: empty unless owned, else
`SELECT role, content FROM messages WHERE session_id = ? ORDER BY created_at ASC`.
The sort is modelled as a stable insertion sort, which fixes ONE
SQL-compliant result: SQLite leaves the relative order of rows with equal
`created_at` unspecified, and this function resolves such ties by insertion
order.  Results of this function are only relied on where every compliant
tie order agrees (for example the empty result of a failed ownership check);
order-sensitive properties are stated against `getConversationHistoryRel`
below, which admits every compliant result. -/
def getConversationHistory (sessionId userId : String) (st : State) : List Msg :=
  match getSession sessionId userId st with
  | none => []
  | some _ =>
    (List.insertionSort olderFirst
        (st.messages.filter (fun r => decide (r.sessionId = sessionId)))).map
      (fun r => { role := r.role, content := r.content })

end SessionDurableObject

/-- Decoded JWT payload fields used by the verifier; absent fields are `none`. -/
structure JwtPayload where
  sub : Option String
  iss : Option String
  exp : Option Int
deriving DecidableEq, Repr

/-- Shape of the bearer credential as seen after the structural checks:
header missing or without the `Bearer ` scheme, token with a dot-segment
count other than 3, three segments whose payload does not base64url/JSON
decode, or a decoded payload. -/
inductive Credential where
  | notBearer : Credential
  | wrongSegments : Nat → Credential
  | undecodable : Credential
  | wellFormed : JwtPayload → Credential
deriving DecidableEq, Repr

/-- JS `payload.exp < now`: comparing `undefined` with a number yields `false`. -/
def jsExpLt (e : Option Int) (now : Int) : Bool :=
  match e with
  | some v => decide (v < now)
  | none => false

/-- JS truthiness of the number `payload.exp`: `undefined` and `0` are falsy. -/
def jsExpTruthy (e : Option Int) : Bool :=
  match e with
  | some v => decide (v ≠ 0)
  | none => false

/-- Character-list substring occurrence, used to model JS `String.includes`. -/
def containsSeq (sub : List Char) : List Char → Bool
  | [] => sub.isEmpty
  | c :: rest => sub.isPrefixOf (c :: rest) || containsSeq sub rest

/-- JS `s.includes(sub)`. -/
def jsIncludes (s sub : String) : Bool := containsSeq sub.toList s.toList

/-- JS `s.startsWith(p)`. -/
def jsStartsWith (s p : String) : Bool := p.toList.isPrefixOf s.toList

/--
`verifyClerkToken` (src/auth/clerk.ts): reject a missing/misformed header or a
token without exactly 3 dot-segments; decode the payload; reject when
`payload.exp < now` (a missing `exp` compares false); reject unless
`payload.iss.startsWith('https://clerk.')` (a missing `iss` throws, which the
surrounding catch turns into `null`); return `payload.sub`.
-/
def verifyClerkToken (cred : Credential) (now : Int) : Option String :=
  match cred with
  | .notBearer => none
  | .wrongSegments _ => none
  | .undecodable => none
  | .wellFormed p =>
    if jsExpLt p.exp now then none
    else
      match p.iss with
      | none => none
      | some iss => if jsStartsWith iss "https://clerk." then p.sub else none

/-- Outcome of a route authentication middleware. -/
inductive AuthResult where
  | unauthorized : String → AuthResult
  | authorized : String → AuthResult
deriving DecidableEq, Repr

/--
Auth middleware of src/session/session-manager.ts: expiry check is
`payload.exp && payload.exp < now` (truthiness guard), issuer check is
`payload.iss` truthy and containing `clerk.` or `.clerk.accounts.`,
then `payload.sub` must be truthy.
-/
def authMiddlewareSM (cred : Credential) (now : Int) : AuthResult :=
  match cred with
  | .notBearer => .unauthorized "no_bearer"
  | .wrongSegments _ => .unauthorized "invalid_jwt_format"
  | .undecodable => .unauthorized "verify_error"
  | .wellFormed p =>
    if jsExpTruthy p.exp && jsExpLt p.exp now then .unauthorized "token_expired"
    else
      let issOk :=
        match p.iss with
        | none => false
        | some iss =>
          if iss = "" then false
          else jsIncludes iss "clerk." || jsIncludes iss ".clerk.accounts."
      if !issOk then .unauthorized "invalid_issuer"
      else
        match p.sub with
        | none => .unauthorized "no_user_id"
        | some s => if s = "" then .unauthorized "no_user_id" else .authorized s

/--
Auth middleware of src/worker-hono.ts: identical to `authMiddlewareSM` except
that the expiry check is a bare `payload.exp < now` (no truthiness guard;
comparing a missing `exp` still yields `false`).
-/
def authMiddlewareWH (cred : Credential) (now : Int) : AuthResult :=
  match cred with
  | .notBearer => .unauthorized "no_bearer"
  | .wrongSegments _ => .unauthorized "invalid_jwt_format"
  | .undecodable => .unauthorized "decode_error"
  | .wellFormed p =>
    if jsExpLt p.exp now then .unauthorized "token_expired"
    else
      let issOk :=
        match p.iss with
        | none => false
        | some iss =>
          if iss = "" then false
          else jsIncludes iss "clerk." || jsIncludes iss ".clerk.accounts."
      if !issOk then .unauthorized "invalid_issuer"
      else
        match p.sub with
        | none => .unauthorized "no_user_id"
        | some s => if s = "" then .unauthorized "no_user_id" else .authorized s

/-- Result of one upstream completion call (`fetch` of
`https://opencode.ai/zen/v1/chat/completions`): a 2xx body whose
`choices[i].message.content` texts are listed, a non-2xx status with its
status text and body, or a thrown network/parse error with its message. -/
inductive UpstreamResult where
  | ok : List String → UpstreamResult
  | httpError : Nat → String → String → UpstreamResult
  | netError : String → UpstreamResult
deriving DecidableEq, Repr

namespace OpenCodeService

/-- The fixed fallback marker prepended by the catch block of
`callOpenCodeAPI`. -/
def errMarker : String := "[エラー] API呼び出しに失敗しました: "

/--
`callOpenCodeAPI` (src/opencode/opencode-client.ts): on a non-ok response it
throws `OpenCode API error: ...`, on a body without choices it throws
`Invalid response format from OpenCode API`; every throw is caught in the same
function and turned into the marker reply, so the call always returns a
string and never propagates an exception.
-/
def callOpenCodeAPI (r : UpstreamResult) : String :=
  match r with
  | .ok choices =>
    match choices with
    | c :: _ => c
    | [] => errMarker ++ "Invalid response format from OpenCode API"
  | .httpError status statusText body =>
    errMarker ++ ("OpenCode API error: " ++ toString status ++ " " ++ statusText ++ " - " ++ body)
  | .netError msg => errMarker ++ msg

/--
`sendPrompt` (src/opencode/opencode-client.ts), with the worker's local
in-memory store as the session backend: ownership check, append the user
message, read the full history, call the upstream API on it, append the
assistant reply, return it.  `upstream` is the behaviour of the external
completion endpoint on the message sequence it is sent.
-/
def sendPrompt (sessionId userId prompt : String)
    (upstream : List Msg → UpstreamResult) (st : InMemorySessionStore.State) :
    Except String (String × InMemorySessionStore.State) :=
  match InMemorySessionStore.getSession sessionId userId st with
  | none => .error "Session not found or access denied"
  | some _ =>
    match InMemorySessionStore.addMessage sessionId userId ⟨"user", prompt⟩ st with
    | .error e => .error e
    | .ok st1 =>
      let conversationHistory :=
        InMemorySessionStore.getConversationHistory sessionId userId st1
      let response := callOpenCodeAPI (upstream conversationHistory)
      match InMemorySessionStore.addMessage sessionId userId ⟨"assistant", response⟩ st1 with
      | .error e => .error e
      | .ok st2 => .ok (response, st2)

end OpenCodeService

/-- HTTP outcome of the POST /api/prompt route. -/
inductive PromptRouteResult where
  | badRequest : PromptRouteResult
  | notFound : PromptRouteResult
  | success : String → String → PromptRouteResult
  | serverError : String → PromptRouteResult
deriving DecidableEq, Repr

/-- The no-`sessionId` branch of the /api/prompt route: create a session for
the requester and relay through it. -/
def promptCreatePath (userId prompt : String) (upstream : List Msg → UpstreamResult)
    (now : Nat) (st : InMemorySessionStore.State) :
    PromptRouteResult × InMemorySessionStore.State :=
  let p := InMemorySessionStore.createSession userId now st
  match OpenCodeService.sendPrompt p.1.id userId prompt upstream p.2 with
  | .ok (text, st2) => (.success text p.1.id, st2)
  | .error e => (.serverError e, p.2)

/--
POST /api/prompt (src/session/session-manager.ts `setupRoutes`): 400 when the
prompt is falsy; with a truthy `sessionId`, 404 unless `getSession` resolves
for the requester, else relay; with `sessionId` absent (or the falsy empty
string), create a new session for the requester and relay, answering with the
new session's id.  A thrown relay error becomes a 500 payload.
-/
def promptHandler (userId prompt : String) (sessionId : Option String)
    (upstream : List Msg → UpstreamResult) (now : Nat)
    (st : InMemorySessionStore.State) :
    PromptRouteResult × InMemorySessionStore.State :=
  if prompt = "" then (.badRequest, st)
  else
    match sessionId with
    | some sid =>
      if sid = "" then promptCreatePath userId prompt upstream now st
      else
        match InMemorySessionStore.getSession sid userId st with
        | none => (.notFound, st)
        | some _ =>
          match OpenCodeService.sendPrompt sid userId prompt upstream st with
          | .ok (text, st2) => (.success text sid, st2)
          | .error e => (.serverError e, st)
    | none => promptCreatePath userId prompt upstream now st

/-- Is a session list ordered most-recent-first by `createdAt`? -/
def mostRecentFirstB : List Session → Bool
  | [] => true
  | [_] => true
  | a :: b :: rest => decide (b.createdAt ≤ a.createdAt) && mostRecentFirstB (b :: rest)

theorem mapGet_mapSet_self {α : Type} (k : String) (v : α) (m : List (String × α)) :
    mapGet k (mapSet k v m) = some v := by
  induction m with
  | nil => simp [mapGet, mapSet]
  | cons e rest ih =>
    by_cases h : e.1 = k
    · simp [mapGet, mapSet, h]
    · simp [mapGet, mapSet, h, ih]

theorem mapGet_mapSet_ne {α : Type} {k k' : String} (v : α) (m : List (String × α))
    (h : k' ≠ k) : mapGet k' (mapSet k v m) = mapGet k' m := by
  induction m with
  | nil =>
    simp only [mapSet, mapGet]
    rw [if_neg (show ¬(k = k') from fun h1 => h h1.symm)]
  | cons e rest ih =>
    by_cases he : e.1 = k
    · subst he
      simp only [mapSet, if_pos rfl, mapGet]
      rw [if_neg (show ¬(e.1 = k') from fun h1 => h h1.symm),
        if_neg (show ¬(e.1 = k') from fun h1 => h h1.symm)]
    · simp only [mapSet, if_neg he, mapGet]
      by_cases he' : e.1 = k'
      · rw [if_pos he', if_pos he']
      · rw [if_neg he', if_neg he']
        exact ih

theorem mapGet_eq_none_of_not_mem {α : Type} {k : String} {m : List (String × α)}
    (h : k ∉ m.map Prod.fst) : mapGet k m = none := by
  induction m with
  | nil => rfl
  | cons e rest ih =>
    simp only [List.map_cons, List.mem_cons, not_or] at h
    simp only [mapGet]
    rw [if_neg (show ¬(e.1 = k) from fun h1 => h.1 h1.symm)]
    exact ih h.2

theorem mapGet_mapDelete_self {α : Type} (k : String) (m : List (String × α))
    (hnd : (m.map Prod.fst).Nodup) : mapGet k (mapDelete k m) = none := by
  induction m with
  | nil => rfl
  | cons e rest ih =>
    simp only [List.map_cons, List.nodup_cons] at hnd
    by_cases h : e.1 = k
    · simp only [mapDelete, if_pos h]
      exact mapGet_eq_none_of_not_mem (h ▸ hnd.1)
    · simp only [mapDelete, if_neg h, mapGet, if_neg h]
      exact ih hnd.2

theorem mapDelete_sublist {α : Type} (k : String) (m : List (String × α)) :
    (mapDelete k m).Sublist m := by
  induction m with
  | nil => exact List.Sublist.refl []
  | cons e rest ih =>
    by_cases h : e.1 = k
    · simp only [mapDelete, if_pos h]
      exact List.sublist_cons_self e rest
    · simp only [mapDelete, if_neg h]
      exact ih.cons₂ e

theorem mapSet_mapSet_self {α : Type} (k : String) (v w : α) (m : List (String × α)) :
    mapSet k v (mapSet k w m) = mapSet k v m := by
  induction m with
  | nil => simp [mapSet]
  | cons e rest ih =>
    by_cases h : e.1 = k
    · simp [mapSet, h]
    · simp [mapSet, h, ih]

theorem im_getSession_some_iff (sessionId userId : String)
    (st : InMemorySessionStore.State) (sess : Session) :
    InMemorySessionStore.getSession sessionId userId st = some sess ↔
      (mapGet sessionId st.sessions = some sess ∧ sess.userId = userId) := by
  unfold InMemorySessionStore.getSession
  cases hg : mapGet sessionId st.sessions with
  | none => simp
  | some s0 =>
    by_cases ho : s0.userId = userId
    · simp only [if_pos ho, Option.some.injEq]
      constructor
      · intro h
        subst h
        exact ⟨rfl, ho⟩
      · intro h
        exact h.1
    · simp only [if_neg ho, Option.some.injEq]
      constructor
      · intro h
        cases h
      · intro h
        have hs := h.1
        subst hs
        exact absurd h.2 ho

theorem im_addMessage_owned (sessionId userId : String) (m : Msg)
    (st : InMemorySessionStore.State) (sess : Session)
    (h : InMemorySessionStore.getSession sessionId userId st = some sess) :
    InMemorySessionStore.addMessage sessionId userId m st =
      .ok { st with
            messages :=
              mapSet sessionId ((mapGet sessionId st.messages).getD [] ++ [m])
                st.messages } := by
  obtain ⟨hg, ho⟩ := (im_getSession_some_iff sessionId userId st sess).mp h
  unfold InMemorySessionStore.addMessage
  simp [hg, ho]

theorem sendPrompt_spec (sessionId userId prompt : String)
    (upstream : List Msg → UpstreamResult) (st : InMemorySessionStore.State)
    (sess : Session)
    (h : InMemorySessionStore.getSession sessionId userId st = some sess) :
    OpenCodeService.sendPrompt sessionId userId prompt upstream st =
      .ok (OpenCodeService.callOpenCodeAPI
            (upstream (InMemorySessionStore.getConversationHistory sessionId userId st
              ++ [⟨"user", prompt⟩])),
          { st with
            messages := mapSet sessionId
              (InMemorySessionStore.getConversationHistory sessionId userId st
                ++ [⟨"user", prompt⟩,
                    ⟨"assistant",
                      OpenCodeService.callOpenCodeAPI
                        (upstream
                          (InMemorySessionStore.getConversationHistory sessionId userId st
                            ++ [⟨"user", prompt⟩]))⟩])
              st.messages }) := by
  obtain ⟨hg, ho⟩ := (im_getSession_some_iff sessionId userId st sess).mp h
  simp [OpenCodeService.sendPrompt, InMemorySessionStore.addMessage,
    InMemorySessionStore.getConversationHistory, InMemorySessionStore.getSession,
    hg, ho, mapGet_mapSet_self, mapSet_mapSet_self]

theorem im_history_of_mapSet (sessionId userId : String)
    (st : InMemorySessionStore.State) (sess : Session) (l : List Msg)
    (h : InMemorySessionStore.getSession sessionId userId st = some sess) :
    InMemorySessionStore.getConversationHistory sessionId userId
      { st with messages := mapSet sessionId l st.messages } = l := by
  obtain ⟨hg, ho⟩ := (im_getSession_some_iff sessionId userId st sess).mp h
  simp [InMemorySessionStore.getConversationHistory, hg, ho, mapGet_mapSet_self]

/--
Counterexample to claim C2.  The claim says a well-formed three-segment bearer
credential whose decoded `exp` equals the current time is rejected as expired.
The code compares `payload.exp < now` strictly, so at `exp = now = 1000` the
token (with a valid issuer and subject) verifies: `verifyClerkToken` returns
the subject and both route middlewares authorize the request.
-/
theorem C2_boundary_counterexample :
    verifyClerkToken
        (.wellFormed
          { sub := some "user_123", iss := some "https://clerk.example.com",
            exp := some 1000 }) 1000 = some "user_123"
    ∧ authMiddlewareSM
        (.wellFormed
          { sub := some "user_123", iss := some "https://clerk.example.com",
            exp := some 1000 }) 1000 = .authorized "user_123"
    ∧ authMiddlewareWH
        (.wellFormed
          { sub := some "user_123", iss := some "https://clerk.example.com",
            exp := some 1000 }) 1000 = .authorized "user_123" := by
  refine ⟨by decide, by decide, by decide⟩

/--
C2 (amended): a well-formed credential whose decoded `exp` is a nonzero value
strictly before the current time is rejected as expired by `verifyClerkToken`
and by both route auth middlewares; a credential with `exp` equal to the
current time passes the expiry comparison (the check is `payload.exp < now`).
-/
theorem C2_expiry_strictly_before (p : JwtPayload) (now e : Int)
    (hexp : p.exp = some e) (hz : e ≠ 0) (hlt : e < now) :
    verifyClerkToken (.wellFormed p) now = none
    ∧ authMiddlewareSM (.wellFormed p) now = .unauthorized "token_expired"
    ∧ authMiddlewareWH (.wellFormed p) now = .unauthorized "token_expired" := by
  simp [verifyClerkToken, authMiddlewareSM, authMiddlewareWH, jsExpLt, jsExpTruthy,
    hexp, hz, hlt]

/-- Witness for C2 (amended): a token with `exp = 5` checked at `now = 10` is
rejected everywhere. -/
theorem C2_expiry_strictly_before_witness :
    verifyClerkToken
        (.wellFormed
          { sub := some "user_123", iss := some "https://clerk.example.com",
            exp := some 5 }) 10 = none
    ∧ authMiddlewareSM
        (.wellFormed
          { sub := some "user_123", iss := some "https://clerk.example.com",
            exp := some 5 }) 10 = .unauthorized "token_expired"
    ∧ authMiddlewareWH
        (.wellFormed
          { sub := some "user_123", iss := some "https://clerk.example.com",
            exp := some 5 }) 10 = .unauthorized "token_expired" :=
  C2_expiry_strictly_before
    { sub := some "user_123", iss := some "https://clerk.example.com", exp := some 5 }
    10 5 rfl (by decide) (by decide)

/--
C10: a well-formed three-segment JWT whose decoded payload has no `exp` field
is never rejected as expired.  Provided the issuer passes the respective check
and the subject is a nonempty string, `verifyClerkToken` returns the subject
and both route auth middlewares authorize the request with that user id:
the expiry comparison only fires when an `exp` value is present (and then only
when it is strictly below the current time).
-/
theorem C10_missing_exp_accepted (p : JwtPayload) (now : Int) (s iss : String)
    (hexp : p.exp = none) (hsub : p.sub = some s) (hs : s ≠ "")
    (hiss : p.iss = some iss) (hne : iss ≠ "")
    (hstart : jsStartsWith iss "https://clerk." = true)
    (hinc : jsIncludes iss "clerk." = true) :
    verifyClerkToken (.wellFormed p) now = some s
    ∧ authMiddlewareSM (.wellFormed p) now = .authorized s
    ∧ authMiddlewareWH (.wellFormed p) now = .authorized s := by
  simp [verifyClerkToken, authMiddlewareSM, authMiddlewareWH, jsExpLt, jsExpTruthy,
    hexp, hsub, hs, hiss, hne, hstart, hinc]

/-- Witness for C10: a payload with subject `user_1`, a Clerk issuer and no
`exp` field at all is accepted by all three verification paths. -/
theorem C10_missing_exp_accepted_witness :
    verifyClerkToken
        (.wellFormed
          { sub := some "user_1", iss := some "https://clerk.example.com", exp := none })
        12345 = some "user_1"
    ∧ authMiddlewareSM
        (.wellFormed
          { sub := some "user_1", iss := some "https://clerk.example.com", exp := none })
        12345 = .authorized "user_1"
    ∧ authMiddlewareWH
        (.wellFormed
          { sub := some "user_1", iss := some "https://clerk.example.com", exp := none })
        12345 = .authorized "user_1" :=
  C10_missing_exp_accepted
    { sub := some "user_1", iss := some "https://clerk.example.com", exp := none }
    12345 "user_1" "https://clerk.example.com" rfl rfl (by decide) rfl (by decide)
    (by decide) (by decide)

/--
C7: Round trip — for every user id and store state, `createSession(u)`
immediately followed by `getSession(id, u)` returns the created session, whose
id matches and whose `userId` equals `u`; this holds for the worker's
in-memory store and for the legacy `SessionManager` class alike.
-/
theorem C7_round_trip (st : InMemorySessionStore.State) (tm : SessionManager.State)
    (userId : String) (now : Nat) :
    InMemorySessionStore.getSession (InMemorySessionStore.createSession userId now st).1.id
        userId (InMemorySessionStore.createSession userId now st).2 =
      some (InMemorySessionStore.createSession userId now st).1
    ∧ (InMemorySessionStore.createSession userId now st).1.userId = userId
    ∧ SessionManager.getSession (SessionManager.createSession userId now tm).1.id
        userId (SessionManager.createSession userId now tm).2 =
      some (SessionManager.createSession userId now tm).1
    ∧ (SessionManager.createSession userId now tm).1.userId = userId := by
  refine ⟨?_, rfl, ?_, rfl⟩
  · simp [InMemorySessionStore.createSession, InMemorySessionStore.getSession,
      mapGet_mapSet_self]
  · simp [SessionManager.createSession, SessionManager.getSession, mapGet_mapSet_self]

theorem do_createSession_ok (userId : String) (now : Nat) (rand : String)
    (d : SessionDurableObject.State) (sess : Session) (d2 : SessionDurableObject.State)
    (h : SessionDurableObject.createSession userId now rand d = .ok (sess, d2)) :
    sess = { id := "opencode-" ++ toString now ++ "-" ++ rand, userId := userId,
             createdAt := now }
    ∧ d2 = { d with sessions := d.sessions ++ [sess] }
    ∧ ∀ r ∈ d.sessions, ¬(r.id = sess.id) := by
  simp only [SessionDurableObject.createSession] at h
  split at h
  · simp at h
  · next hcond =>
    simp only [Except.ok.injEq, Prod.mk.injEq] at h
    obtain ⟨hs, hd⟩ := h
    subst hs
    subst hd
    refine ⟨rfl, rfl, ?_⟩
    intro r hr
    simp only [List.any_eq_true, decide_eq_true_eq] at hcond
    exact fun hid => hcond ⟨r, hr, hid⟩

theorem do_getSession_append_none (sessionId u2 : String)
    (d : SessionDurableObject.State) (sess : Session)
    (hfresh : ∀ r ∈ d.sessions, ¬(r.id = sess.id)) (hid : sess.id = sessionId)
    (hne : ¬(sess.userId = u2)) :
    SessionDurableObject.getSession sessionId u2
      { d with sessions := d.sessions ++ [sess] } = none := by
  unfold SessionDurableObject.getSession
  rw [List.find?_eq_none]
  intro r hr
  simp only [List.mem_append, List.mem_singleton] at hr
  cases hr with
  | inl hmem =>
    simp only [Bool.and_eq_true, decide_eq_true_eq, not_and]
    intro hrid
    exact absurd (hid ▸ hrid) (hfresh r hmem)
  | inr heq =>
    subst heq
    simp only [Bool.and_eq_true, decide_eq_true_eq, not_and]
    intro _
    exact hne

theorem sm_deleteSession_fst (sessionId userId : String) (tm : SessionManager.State) :
    (SessionManager.deleteSession sessionId userId tm).1 = none := by
  unfold SessionManager.deleteSession
  cases mapGet sessionId tm.sessions with
  | none => rfl
  | some s =>
    by_cases h : s.userId = userId <;> simp [h]

/--
C1: Ownership isolation — for users `u1 ≠ u2`, after `u1` creates a session,
`getSession` under `u2` answers the not-found result, `deleteSession` under
`u2` answers `false` and leaves the state (hence the session and its message
history) unchanged, and `getConversationHistory` under `u2` answers the empty
list.  Stated for every store state of the worker's in-memory store, of the
legacy `SessionManager` (its `getSession`), and of the SQLite durable object
(for the durable object, creation succeeds when the generated id is fresh,
which the primary-key constraint enforces).
-/
theorem C1_ownership_isolation (st : InMemorySessionStore.State)
    (tm : SessionManager.State) (d : SessionDurableObject.State)
    (u1 u2 : String) (now : Nat) (rand : String) (hne : u1 ≠ u2) :
    (InMemorySessionStore.getSession (InMemorySessionStore.createSession u1 now st).1.id u2
        (InMemorySessionStore.createSession u1 now st).2 = none
      ∧ InMemorySessionStore.deleteSession (InMemorySessionStore.createSession u1 now st).1.id
          u2 (InMemorySessionStore.createSession u1 now st).2 =
        (false, (InMemorySessionStore.createSession u1 now st).2)
      ∧ InMemorySessionStore.getConversationHistory
          (InMemorySessionStore.createSession u1 now st).1.id u2
          (InMemorySessionStore.createSession u1 now st).2 = [])
    ∧ SessionManager.getSession (SessionManager.createSession u1 now tm).1.id u2
        (SessionManager.createSession u1 now tm).2 = none
    ∧ (∀ sess d2, SessionDurableObject.createSession u1 now rand d = .ok (sess, d2) →
        SessionDurableObject.getSession sess.id u2 d2 = none
        ∧ SessionDurableObject.deleteSession sess.id u2 d2 = (false, d2)
        ∧ SessionDurableObject.getConversationHistory sess.id u2 d2 = []) := by
  refine ⟨⟨?_, ?_, ?_⟩, ?_, ?_⟩
  · simp [InMemorySessionStore.createSession, InMemorySessionStore.getSession,
      mapGet_mapSet_self, hne]
  · simp [InMemorySessionStore.createSession, InMemorySessionStore.deleteSession,
      mapGet_mapSet_self, hne]
  · simp [InMemorySessionStore.createSession, InMemorySessionStore.getConversationHistory,
      mapGet_mapSet_self, hne]
  · simp [SessionManager.createSession, SessionManager.getSession,
      mapGet_mapSet_self, hne]
  · intro sess d2 hok
    obtain ⟨hsess, hd2, hfresh⟩ := do_createSession_ok u1 now rand d sess d2 hok
    have huser : ¬(sess.userId = u2) := by
      rw [hsess]
      exact hne
    have hget : SessionDurableObject.getSession sess.id u2 d2 = none := by
      rw [hd2]
      exact do_getSession_append_none sess.id u2 d sess hfresh rfl huser
    refine ⟨hget, ?_, ?_⟩
    · unfold SessionDurableObject.deleteSession
      rw [hget]
    · unfold SessionDurableObject.getConversationHistory
      rw [hget]

/-- Witness for C1 at concrete inputs: user `u1` creates a session in each
empty store; user `u2` cannot read it. -/
theorem C1_ownership_isolation_witness :
    InMemorySessionStore.getSession
        (InMemorySessionStore.createSession "u1" 0 InMemorySessionStore.initial).1.id "u2"
        (InMemorySessionStore.createSession "u1" 0 InMemorySessionStore.initial).2 = none
    ∧ SessionManager.getSession
        (SessionManager.createSession "u1" 0 SessionManager.initial).1.id "u2"
        (SessionManager.createSession "u1" 0 SessionManager.initial).2 = none :=
  ⟨(C1_ownership_isolation InMemorySessionStore.initial SessionManager.initial
      SessionDurableObject.initial "u1" "u2" 0 "r" (by decide)).1.1,
   (C1_ownership_isolation InMemorySessionStore.initial SessionManager.initial
      SessionDurableObject.initial "u1" "u2" 0 "r" (by decide)).2.1⟩

/--
Counterexample to claim C4.  The claim says `deleteSession` returns a boolean
reporting whether a deletion occurred.  The legacy `SessionManager.deleteSession`
(one of the implementations the claim covers) is declared `void`: at an input
where a session with the requested id exists and is owned by the requester —
where the claim demands the return value `true` — the call produces no boolean
at all (the JS call expression evaluates to `undefined`).
-/
theorem C4_void_delete_counterexample :
    SessionManager.getSession "session-0" "u1"
        (SessionManager.createSession "u1" 0 SessionManager.initial).2 =
      some { id := "session-0", userId := "u1", createdAt := 0 }
    ∧ (SessionManager.deleteSession "session-0" "u1"
        (SessionManager.createSession "u1" 0 SessionManager.initial).2).1 ≠ some true := by
  refine ⟨by decide, by decide⟩

theorem do_deleteSession_spec (sessionId userId : String)
    (d : SessionDurableObject.State) :
    ((SessionDurableObject.deleteSession sessionId userId d).1 = true ↔
      ∃ sess, SessionDurableObject.getSession sessionId userId d = some sess)
    ∧ ((SessionDurableObject.deleteSession sessionId userId d).1 = false →
        (SessionDurableObject.deleteSession sessionId userId d).2 = d)
    ∧ ((SessionDurableObject.deleteSession sessionId userId d).1 = true →
        SessionDurableObject.getSession sessionId userId
          (SessionDurableObject.deleteSession sessionId userId d).2 = none
        ∧ (∀ r ∈ (SessionDurableObject.deleteSession sessionId userId d).2.messages,
            ¬(r.sessionId = sessionId))
        ∧ SessionDurableObject.getConversationHistory sessionId userId
            (SessionDurableObject.deleteSession sessionId userId d).2 = [])
    ∧ (SessionDurableObject.deleteSession sessionId userId
        ((SessionDurableObject.deleteSession sessionId userId d).2)).1 = false := by
  cases hg : SessionDurableObject.getSession sessionId userId d with
  | none =>
    refine ⟨?_, ?_, ?_, ?_⟩
    · simp [SessionDurableObject.deleteSession, hg]
    · simp [SessionDurableObject.deleteSession, hg]
    · simp [SessionDurableObject.deleteSession, hg]
    · simp [SessionDurableObject.deleteSession, hg]
  | some sess =>
    have hafter : SessionDurableObject.getSession sessionId userId
        { d with
          sessions := d.sessions.filter (fun r => decide (r.id ≠ sessionId))
          messages := d.messages.filter (fun r => decide (r.sessionId ≠ sessionId)) } =
        none := by
      unfold SessionDurableObject.getSession
      rw [List.find?_eq_none]
      intro x hx
      have hxid : x.id ≠ sessionId := of_decide_eq_true (List.mem_filter.mp hx).2
      simp [hxid]
    refine ⟨?_, ?_, ?_, ?_⟩
    · constructor
      · intro _
        exact ⟨sess, rfl⟩
      · intro _
        simp [SessionDurableObject.deleteSession, hg]
    · intro hfalse
      simp [SessionDurableObject.deleteSession, hg] at hfalse
    · intro _
      refine ⟨?_, ?_, ?_⟩
      · simp only [SessionDurableObject.deleteSession, hg]
        exact hafter
      · simp only [SessionDurableObject.deleteSession, hg]
        intro r hr
        exact of_decide_eq_true (List.mem_filter.mp hr).2
      · simp only [SessionDurableObject.deleteSession, hg,
          SessionDurableObject.getConversationHistory, hafter]
    · simp only [SessionDurableObject.deleteSession, hg, hafter]

/--
C4 (amended): for the worker's store implementations `InMemorySessionStore`
and `SessionDurableObject`, `deleteSession` returns `true` exactly when a
session with that id existed and was owned by the requester — and then it
removes the session together with its message history — and returns `false`,
without any error or distinct forbidden signal, when the id does not exist,
the session was already deleted, or the requester is not the owner; an
immediate second call on the same id returns `false`.  The legacy
`SessionManager.deleteSession` performs the same owner-gated removal but is
declared `void` and reports no boolean.  (The store operations are total Lean
functions, so no call throws.)
-/
theorem C4_delete_reports_deletion (st : InMemorySessionStore.State)
    (tm : SessionManager.State) (d : SessionDurableObject.State)
    (sessionId userId : String)
    (hnd : (st.sessions.map Prod.fst).Nodup) :
    ((InMemorySessionStore.deleteSession sessionId userId st).1 = true ↔
      ∃ sess, InMemorySessionStore.getSession sessionId userId st = some sess)
    ∧ ((InMemorySessionStore.deleteSession sessionId userId st).1 = false →
        (InMemorySessionStore.deleteSession sessionId userId st).2 = st)
    ∧ ((InMemorySessionStore.deleteSession sessionId userId st).1 = true →
        InMemorySessionStore.getSession sessionId userId
          (InMemorySessionStore.deleteSession sessionId userId st).2 = none
        ∧ (InMemorySessionStore.deleteSession sessionId userId st).2.messages =
            mapDelete sessionId st.messages
        ∧ InMemorySessionStore.getConversationHistory sessionId userId
            (InMemorySessionStore.deleteSession sessionId userId st).2 = [])
    ∧ (InMemorySessionStore.deleteSession sessionId userId
        ((InMemorySessionStore.deleteSession sessionId userId st).2)).1 = false
    ∧ (SessionManager.deleteSession sessionId userId tm).1 = none
    ∧ (((SessionDurableObject.deleteSession sessionId userId d).1 = true ↔
          ∃ sess, SessionDurableObject.getSession sessionId userId d = some sess)
        ∧ ((SessionDurableObject.deleteSession sessionId userId d).1 = false →
            (SessionDurableObject.deleteSession sessionId userId d).2 = d)
        ∧ ((SessionDurableObject.deleteSession sessionId userId d).1 = true →
            SessionDurableObject.getSession sessionId userId
              (SessionDurableObject.deleteSession sessionId userId d).2 = none
            ∧ (∀ r ∈ (SessionDurableObject.deleteSession sessionId userId d).2.messages,
                ¬(r.sessionId = sessionId))
            ∧ SessionDurableObject.getConversationHistory sessionId userId
                (SessionDurableObject.deleteSession sessionId userId d).2 = [])
        ∧ (SessionDurableObject.deleteSession sessionId userId
            ((SessionDurableObject.deleteSession sessionId userId d).2)).1 = false) := by
  have hdel := mapGet_mapDelete_self sessionId st.sessions hnd
  cases hg : mapGet sessionId st.sessions with
  | none =>
    refine ⟨?_, ?_, ?_, ?_, sm_deleteSession_fst sessionId userId tm,
      do_deleteSession_spec sessionId userId d⟩
    · simp [InMemorySessionStore.deleteSession, InMemorySessionStore.getSession, hg]
    · simp [InMemorySessionStore.deleteSession, hg]
    · simp [InMemorySessionStore.deleteSession, hg]
    · simp [InMemorySessionStore.deleteSession, hg]
  | some sess =>
    by_cases ho : sess.userId = userId
    · refine ⟨?_, ?_, ?_, ?_, sm_deleteSession_fst sessionId userId tm,
        do_deleteSession_spec sessionId userId d⟩
      · simp only [InMemorySessionStore.deleteSession, hg, if_pos ho, true_iff]
        exact ⟨sess, by simp [InMemorySessionStore.getSession, hg, ho]⟩
      · simp [InMemorySessionStore.deleteSession, hg, ho]
      · intro _
        refine ⟨?_, ?_, ?_⟩
        · simp [InMemorySessionStore.deleteSession, hg, ho,
            InMemorySessionStore.getSession, hdel]
        · simp [InMemorySessionStore.deleteSession, hg, ho]
        · simp [InMemorySessionStore.deleteSession, hg, ho,
            InMemorySessionStore.getConversationHistory, hdel]
      · simp [InMemorySessionStore.deleteSession, hg, ho, hdel]
    · refine ⟨?_, ?_, ?_, ?_, sm_deleteSession_fst sessionId userId tm,
        do_deleteSession_spec sessionId userId d⟩
      · simp [InMemorySessionStore.deleteSession, hg, ho,
          InMemorySessionStore.getSession]
      · simp [InMemorySessionStore.deleteSession, hg, ho]
      · simp [InMemorySessionStore.deleteSession, hg, ho]
      · simp [InMemorySessionStore.deleteSession, hg, ho]

/-- Witness for C4 (amended): in a store holding one session of `u1`, deleting
it as `u1` reports `true` and a second delete reports `false`; deleting as the
non-owner `u2` reports `false`. -/
theorem C4_delete_reports_deletion_witness :
    ((InMemorySessionStore.deleteSession "opencode-0-0" "u1"
        (InMemorySessionStore.createSession "u1" 0 InMemorySessionStore.initial).2).1 = true ↔
      ∃ sess, InMemorySessionStore.getSession "opencode-0-0" "u1"
        (InMemorySessionStore.createSession "u1" 0 InMemorySessionStore.initial).2 =
          some sess)
    ∧ (InMemorySessionStore.deleteSession "opencode-0-0" "u1"
        ((InMemorySessionStore.deleteSession "opencode-0-0" "u1"
          (InMemorySessionStore.createSession "u1" 0 InMemorySessionStore.initial).2).2)).1 =
      false
    ∧ (SessionDurableObject.deleteSession "s1" "u1"
        ((SessionDurableObject.deleteSession "s1" "u1"
          { sessions := [{ id := "s1", userId := "u1", createdAt := 0 }],
            messages := [], nextRowid := 1 }).2)).1 = false :=
  ⟨(C4_delete_reports_deletion
      (InMemorySessionStore.createSession "u1" 0 InMemorySessionStore.initial).2
      SessionManager.initial SessionDurableObject.initial "opencode-0-0" "u1"
      (by decide)).1,
   (C4_delete_reports_deletion
      (InMemorySessionStore.createSession "u1" 0 InMemorySessionStore.initial).2
      SessionManager.initial SessionDurableObject.initial "opencode-0-0" "u1"
      (by decide)).2.2.2.1,
   (C4_delete_reports_deletion
      (InMemorySessionStore.createSession "u1" 0 InMemorySessionStore.initial).2
      SessionManager.initial
      { sessions := [{ id := "s1", userId := "u1", createdAt := 0 }],
        messages := [], nextRowid := 1 }
      "s1" "u1" (by decide)).2.2.2.2.2.2.2.2⟩

/--
Counterexample to claim C8.  The claim says that when the store keeps creation
timestamps the listing is ordered most-recent-first.  The worker's in-memory
store keeps `createdAt` on every session but `listUserSessions` only filters
the map values in insertion order: after creating a session at time 1 and
another at time 2 for the same user, the list comes back oldest-first.
-/
theorem C8_insertion_order_counterexample :
    InMemorySessionStore.listUserSessions "u"
        (InMemorySessionStore.createSession "u" 2
          (InMemorySessionStore.createSession "u" 1 InMemorySessionStore.initial).2).2 =
      [{ id := "opencode-1-0", userId := "u", createdAt := 1 },
       { id := "opencode-2-1", userId := "u", createdAt := 2 }]
    ∧ mostRecentFirstB (InMemorySessionStore.listUserSessions "u"
        (InMemorySessionStore.createSession "u" 2
          (InMemorySessionStore.createSession "u" 1 InMemorySessionStore.initial).2).2) =
      false := by
  refine ⟨by decide, by decide⟩

/--
C8 (amended): every implementation of `listUserSessions` returns exactly the
sessions whose owner is the requester — membership in the result is equivalent
to being a stored session owned by the requester, so no session of another
owner ever appears.  The SQLite durable object orders the result
most-recent-first by `created_at` (`ORDER BY created_at DESC`); the worker's
in-memory store returns the matching sessions in map insertion order
(a sublist of the stored values, oldest-first), not most-recent-first.
-/
theorem C8_list_filter_and_order (st : InMemorySessionStore.State)
    (d : SessionDurableObject.State) (userId : String) :
    (∀ sess, sess ∈ InMemorySessionStore.listUserSessions userId st ↔
      (sess ∈ mapValues st.sessions ∧ sess.userId = userId))
    ∧ (InMemorySessionStore.listUserSessions userId st).Sublist (mapValues st.sessions)
    ∧ (∀ sess, sess ∈ SessionDurableObject.listUserSessions userId d ↔
      (sess ∈ d.sessions ∧ sess.userId = userId))
    ∧ List.Sorted SessionDurableObject.moreRecent
        (SessionDurableObject.listUserSessions userId d) := by
  refine ⟨fun sess => ?_, List.filter_sublist _, fun sess => ?_, ?_⟩
  · simp [InMemorySessionStore.listUserSessions, List.mem_filter]
  · simp [SessionDurableObject.listUserSessions, List.mem_filter]
  · exact List.sorted_insertionSort SessionDurableObject.moreRecent _

theorem im_getSession_after_create (userId : String) (now : Nat)
    (st : InMemorySessionStore.State) :
    InMemorySessionStore.getSession (InMemorySessionStore.createSession userId now st).1.id
        userId (InMemorySessionStore.createSession userId now st).2 =
      some (InMemorySessionStore.createSession userId now st).1 := by
  simp [InMemorySessionStore.createSession, InMemorySessionStore.getSession,
    mapGet_mapSet_self]

theorem im_history_after_create (userId : String) (now : Nat)
    (st : InMemorySessionStore.State) :
    InMemorySessionStore.getConversationHistory
        (InMemorySessionStore.createSession userId now st).1.id userId
        (InMemorySessionStore.createSession userId now st).2 = [] := by
  simp [InMemorySessionStore.createSession, InMemorySessionStore.getConversationHistory,
    mapGet_mapSet_self]

/--
C5: Relay step sequence on success — for every `sendPrompt` call on an owned
session whose upstream call (applied to the full ordered history extended with
the new user message) succeeds with first choice text `r`, the relay appends
the user message, sends the history, appends the assistant reply `r`, and
returns `r`; exactly two messages are appended, in that order.
-/
theorem C5_relay_success_sequence
    (st : InMemorySessionStore.State) (sessionId userId prompt : String)
    (upstream : List Msg → UpstreamResult) (sess : Session) (r : String)
    (rest : List String)
    (h : InMemorySessionStore.getSession sessionId userId st = some sess)
    (hup : upstream (InMemorySessionStore.getConversationHistory sessionId userId st
      ++ [⟨"user", prompt⟩]) = .ok (r :: rest)) :
    ∃ st2,
      OpenCodeService.sendPrompt sessionId userId prompt upstream st = .ok (r, st2)
      ∧ st2.sessions = st.sessions
      ∧ InMemorySessionStore.getConversationHistory sessionId userId st2 =
          InMemorySessionStore.getConversationHistory sessionId userId st
            ++ [⟨"user", prompt⟩, ⟨"assistant", r⟩] := by
  have hs := sendPrompt_spec sessionId userId prompt upstream st sess h
  rw [hup] at hs
  have hc : OpenCodeService.callOpenCodeAPI (.ok (r :: rest)) = r := rfl
  rw [hc] at hs
  exact ⟨_, hs, rfl, im_history_of_mapSet sessionId userId st sess _ h⟩

/-- Witness for C5: one owned session, upstream answers `Hi`; the relay
returns `Hi` and the history is the user message then the assistant reply. -/
theorem C5_relay_success_sequence_witness :
    ∃ st2,
      OpenCodeService.sendPrompt "opencode-0-0" "u1" "Hello"
          (fun _ => .ok ["Hi"])
          (InMemorySessionStore.createSession "u1" 0 InMemorySessionStore.initial).2 =
        .ok ("Hi", st2)
      ∧ st2.sessions =
          (InMemorySessionStore.createSession "u1" 0 InMemorySessionStore.initial).2.sessions
      ∧ InMemorySessionStore.getConversationHistory "opencode-0-0" "u1" st2 =
          InMemorySessionStore.getConversationHistory "opencode-0-0" "u1"
            (InMemorySessionStore.createSession "u1" 0 InMemorySessionStore.initial).2
            ++ [⟨"user", "Hello"⟩, ⟨"assistant", "Hi"⟩] :=
  C5_relay_success_sequence
    (InMemorySessionStore.createSession "u1" 0 InMemorySessionStore.initial).2
    "opencode-0-0" "u1" "Hello" (fun _ => .ok ["Hi"])
    { id := "opencode-0-0", userId := "u1", createdAt := 0 } "Hi" [] (by decide) (by decide)

/--
C9: Transparent session creation on prompt — for every authenticated
POST /prompt request with a non-empty prompt and no `sessionId`, the handler
creates a new session owned by the verified requester, relays through it, and
returns a success response whose sessionId field is the new session's id (the
new session is readable by the requester in the final state).  When a
`sessionId` is supplied but does not resolve to a session owned by the
requester, the handler answers 404 Session-not-found and leaves the store
untouched (the prompt is not relayed).
-/
theorem C9_prompt_route (st : InMemorySessionStore.State) (userId prompt : String)
    (upstream : List Msg → UpstreamResult) (now : Nat) (hp : prompt ≠ "") :
    (∃ st2,
        promptHandler userId prompt none upstream now st =
          (.success (OpenCodeService.callOpenCodeAPI (upstream [⟨"user", prompt⟩]))
            (InMemorySessionStore.createSession userId now st).1.id, st2)
        ∧ (InMemorySessionStore.createSession userId now st).1.userId = userId
        ∧ InMemorySessionStore.getSession
            (InMemorySessionStore.createSession userId now st).1.id userId st2 =
          some (InMemorySessionStore.createSession userId now st).1)
    ∧ (∀ sid, sid ≠ "" → InMemorySessionStore.getSession sid userId st = none →
        promptHandler userId prompt (some sid) upstream now st = (.notFound, st)) := by
  constructor
  · have hown := im_getSession_after_create userId now st
    have hs := sendPrompt_spec
      (InMemorySessionStore.createSession userId now st).1.id userId prompt upstream
      (InMemorySessionStore.createSession userId now st).2
      (InMemorySessionStore.createSession userId now st).1 hown
    rw [im_history_after_create userId now st] at hs
    simp only [List.nil_append] at hs
    refine ⟨{ sessions := (InMemorySessionStore.createSession userId now st).2.sessions,
              messages := mapSet (InMemorySessionStore.createSession userId now st).1.id
                [⟨"user", prompt⟩,
                 ⟨"assistant",
                   OpenCodeService.callOpenCodeAPI (upstream [⟨"user", prompt⟩])⟩]
                (InMemorySessionStore.createSession userId now st).2.messages,
              sessionCounter :=
                (InMemorySessionStore.createSession userId now st).2.sessionCounter },
            ?_, rfl, ?_⟩
    · simp only [promptHandler, promptCreatePath, if_neg hp]
      rw [hs]
    · exact hown
  · intro sid hsid hnone
    simp only [promptHandler, if_neg hp, if_neg hsid, hnone]

/-- Witness for C9: asking for an unknown session id answers 404 and leaves
the empty store unchanged. -/
theorem C9_prompt_route_witness :
    promptHandler "u1" "Hello" (some "nope") (fun _ => .ok ["Hi"]) 0
      InMemorySessionStore.initial = (.notFound, InMemorySessionStore.initial) :=
  (C9_prompt_route InMemorySessionStore.initial "u1" "Hello" (fun _ => .ok ["Hi"]) 0
    (by decide)).2 "nope" (by decide) (by decide)


